import Mathlib

/-!
Verification of the timeline log-viewer (`timeline.py`).

Shallow embedding conventions:
* Python strings are modelled as `List Char`; ASCII whitespace and digits
  model the `re` classes `\s` and `\d` (the repository's inputs are ASCII).
* `str.splitlines` is modelled for the separators `\n`, `\r`, `\r\n`,
  `\x0b`, `\x0c`; `str.strip` strips ASCII whitespace at both ends.
* A Python function that can raise is modelled as returning `Option`,
  `none` standing for an uncaught exception propagating to the caller.
* `datetime.strptime` with the formats `%H:%M:%S.%f` / `%H:%M:%S` is
  modelled including its field ranges (`%H` 0-23, `%M` 0-59, `%S` 0-61,
  `%f` one to six digits right-padded to microseconds) and the final
  `datetime` constructor check `second ≤ 59`.
* Pandas `DataFrame`s are lists of typed rows; the in-place addition of
  the `y` column by `create_figure` is modelled by returning the updated
  row list alongside the produced figure.
* A Plotly figure is modelled as a `Scene`: marker list, shape list and
  the y-axis tick configuration.  Pure styling (colors of the grid,
  margins, fonts) is not part of the model.
-/

/-- ASCII model of Python's regex class `\s` and of the characters
`str.strip` removes. -/
def isSpaceC (c : Char) : Bool :=
  c = ' ' || c = '\t' || c = '\n' || c = '\r' || c = '\x0b' || c = '\x0c'

/-- ASCII model of Python's regex class `\d`. -/
def digitC (c : Char) : Bool :=
  '0' ≤ c && c ≤ '9'

/-- Numeric value of a digit character. -/
def dval (c : Char) : Nat :=
  c.toNat - 48

/-- Model of `str.strip`: drop whitespace from both ends. -/
def strip (l : List Char) : List Char :=
  ((l.dropWhile isSpaceC).reverse.dropWhile isSpaceC).reverse

/-- Helper for `splitlines`: accumulates the current line in reverse. -/
def splitlinesAux : List Char → List Char → List (List Char)
  | [], acc => if acc = [] then [] else [acc.reverse]
  | '\r' :: '\n' :: rest, acc => acc.reverse :: splitlinesAux rest []
  | c :: rest, acc =>
    if c = '\n' || c = '\x0b' || c = '\x0c' || c = '\r' then
      acc.reverse :: splitlinesAux rest []
    else
      splitlinesAux rest (c :: acc)

/-- Model of `str.splitlines` (no trailing empty line, `\r\n` is one
separator). -/
def splitlines (l : List Char) : List (List Char) :=
  splitlinesAux l []

/-- One parsed event, the dictionary appended by `parse_events`:
the raw matched time string plus object and message. -/
structure Event where
  timestamp : List Char
  object : List Char
  message : List Char
deriving DecidableEq, Repr

/-- Model of matching `\d{2}:\d{2}:\d{2}` at the start of the input,
returning the matched characters and the remainder. -/
def matchHMS (l : List Char) : Option (List Char × List Char) :=
  match l with
  | a :: b :: c :: d :: e :: f :: g :: h :: rest =>
    if digitC a = true ∧ digitC b = true ∧ c = ':' ∧ digitC d = true ∧
        digitC e = true ∧ f = ':' ∧ digitC g = true ∧ digitC h = true then
      some ([a, b, c, d, e, f, g, h], rest)
    else none
  | _ => none

/-- Model of the optional fraction `(?:\.\d+)?`: if a dot follows it must
be followed by at least one digit, and the digit run is consumed
greedily. -/
def fracPart (l : List Char) : Option (List Char × List Char) :=
  match l with
  | c :: rest =>
    if c = '.' then
      if rest.takeWhile digitC = [] then none
      else some ('.' :: rest.takeWhile digitC, rest.dropWhile digitC)
    else some ([], c :: rest)
  | [] => some ([], [])

/-- Model of matching `\d{2}:\d{2}:\d{2}(?:\.\d+)?`. -/
def matchTime (l : List Char) : Option (List Char × List Char) :=
  match matchHMS l with
  | none => none
  | some (hms, r2) =>
    match fracPart r2 with
    | none => none
    | some (f, r) => some (hms ++ f, r)

/-- Boolean test used for the `[^>]+` character class. -/
def notGt (c : Char) : Bool :=
  c != '>'

/-- Step of the line matcher after `>>` was consumed: `\s+(.*)$`. -/
def matchMsg (t o : List Char) (r7 : List Char) : Option Event :=
  match r7 with
  | [] => none
  | c :: r8 => if isSpaceC c then some ⟨t, o, r8.dropWhile isSpaceC⟩ else none

/-- Step of the line matcher expecting the literal `>>`. -/
def matchGtGt (t o : List Char) (rest : List Char) : Option Event :=
  match rest with
  | c1 :: c2 :: r7 => if c1 = '>' ∧ c2 = '>' then matchMsg t o r7 else none
  | _ => none

/-- Step of the line matcher consuming the object `[^>]+`. -/
def matchObject (t : List Char) (r6 : List Char) : Option Event :=
  if r6.takeWhile notGt = [] then none
  else matchGtGt t (r6.takeWhile notGt) (r6.dropWhile notGt)

/-- Step of the line matcher expecting the literal `<<`. -/
def matchLtLt (t : List Char) (r5 : List Char) : Option Event :=
  match r5 with
  | c1 :: c2 :: r6 => if c1 = '<' ∧ c2 = '<' then matchObject t r6 else none
  | _ => none

/-- Step of the line matcher after `]`: `\s+` then `<<`. -/
def matchAfterRB (t : List Char) (r3 : List Char) : Option Event :=
  match r3 with
  | [] => none
  | c :: r4 =>
    if isSpaceC c then matchLtLt t (r4.dropWhile isSpaceC) else none

/-- Step of the line matcher expecting the literal `]` after the time. -/
def matchRBracket (t : List Char) (r2 : List Char) : Option Event :=
  match r2 with
  | [] => none
  | c1 :: r3 => if c1 = ']' then matchAfterRB t r3 else none

/-- Step of the line matcher after the opening `[`: the time then `]`. -/
def matchAfterLB (r1 : List Char) : Option Event :=
  match matchTime r1 with
  | none => none
  | some (t, r2) => matchRBracket t r2

/-- Model of matching the compiled pattern
`^\[(\d\x7b2\x7d:\d\x7b2\x7d:\d\x7b2\x7d(?:\.\d+)?)\]\s+<<([^>]+)>>\s+(.*)$`
against one whole line. -/
def matchLine (l : List Char) : Option Event :=
  match l with
  | [] => none
  | c0 :: r1 => if c0 = '[' then matchAfterLB r1 else none

/-- Body of the `parse_events` loop for one raw line: strip it, skip it
when blank, otherwise try the pattern. -/
def lineStep (line : List Char) : Option Event :=
  if strip line = [] then none else matchLine (strip line)

/-- Model of `parse_events`: split into lines and collect the matches in
input order. -/
def parse_events (raw : List Char) : List Event :=
  (splitlines raw).filterMap lineStep

example : parse_events "".toList = [] := by decide

example :
    parse_events "[19:58:12.174] <<Hello>> Hello, World!".toList =
      [⟨"19:58:12.174".toList, "Hello".toList, "Hello, World!".toList⟩] := by decide

example : parse_events "garbage\n[01:00:00] <<A>> hi".toList =
    [⟨"01:00:00".toList, "A".toList, "hi".toList⟩] := by decide

example : matchLine "[10:00:00] <<A>>".toList = none := by decide

example : matchLine "[99:00:00] <<A>> x".toList =
    some ⟨"99:00:00".toList, "A".toList, "x".toList⟩ := by decide

/-! Generic helper lemmas about `takeWhile` and `dropWhile`. -/

theorem mem_takeWhile_true {α : Type} {p : α → Bool} :
    ∀ {l : List α} {c : α}, c ∈ l.takeWhile p → p c = true := by
  intro l
  induction l with
  | nil => intro c hc; simp [List.takeWhile] at hc
  | cons a t ih =>
    intro c hc
    rw [List.takeWhile_cons] at hc
    by_cases ha : p a = true
    · rw [if_pos ha] at hc
      rcases List.mem_cons.1 hc with h | h
      · rwa [h]
      · exact ih h
    · rw [if_neg ha] at hc
      simp at hc

theorem takeWhile_app {α : Type} {p : α → Bool} {xs rest : List α}
    (hx : ∀ c ∈ xs, p c = true)
    (hr : ∀ c, rest.head? = some c → p c = false) :
    (xs ++ rest).takeWhile p = xs := by
  induction xs with
  | nil =>
    cases rest with
    | nil => rfl
    | cons c t => simp [List.takeWhile_cons, hr c rfl]
  | cons a t ih =>
    have ha : p a = true := hx a (List.mem_cons_self a t)
    simp only [List.cons_append, List.takeWhile_cons, ha, if_true]
    rw [ih (fun c hc => hx c (List.mem_cons_of_mem a hc))]

theorem dropWhile_app {α : Type} {p : α → Bool} {xs rest : List α}
    (hx : ∀ c ∈ xs, p c = true)
    (hr : ∀ c, rest.head? = some c → p c = false) :
    (xs ++ rest).dropWhile p = rest := by
  induction xs with
  | nil =>
    cases rest with
    | nil => rfl
    | cons c t => simp [List.dropWhile_cons, hr c rfl]
  | cons a t ih =>
    have ha : p a = true := hx a (List.mem_cons_self a t)
    simp only [List.cons_append, List.dropWhile_cons, ha, if_true]
    exact ih (fun c hc => hx c (List.mem_cons_of_mem a hc))

theorem head?_dropWhile_false {α : Type} {p : α → Bool} :
    ∀ {l : List α} {c : α}, (l.dropWhile p).head? = some c → p c = false := by
  intro l
  induction l with
  | nil => intro c hc; simp [List.dropWhile] at hc
  | cons a t ih =>
    intro c hc
    rw [List.dropWhile_cons] at hc
    by_cases ha : p a = true
    · rw [if_pos ha] at hc
      exact ih hc
    · rw [if_neg ha] at hc
      simp only [List.head?_cons, Option.some.injEq] at hc
      rw [← hc]
      exact Bool.eq_false_iff.2 ha

/-! The grammar of the specification, stated as a decomposition of the
line, independently of the matcher above. -/

/-- Every character of the run is whitespace. -/
def AllSpace (w : List Char) : Prop :=
  ∀ c ∈ w, isSpaceC c = true

/-- Every character of the run is a digit. -/
def AllDigit (d : List Char) : Prop :=
  ∀ c ∈ d, digitC c = true

/-- Shape `HH:MM:SS`: two digits, colon, two digits, colon, two digits. -/
def HMSShape (t : List Char) : Prop :=
  ∃ a b d e g h, t = [a, b, ':', d, e, ':', g, h] ∧
    digitC a = true ∧ digitC b = true ∧ digitC d = true ∧
    digitC e = true ∧ digitC g = true ∧ digitC h = true

/-- Shape `HH:MM:SS` with an optional dot-fraction of one or more
digits. -/
def TimeShape (t : List Char) : Prop :=
  HMSShape t ∨
    ∃ core ds, t = core ++ '.' :: ds ∧ HMSShape core ∧ ds ≠ [] ∧ AllDigit ds

/-- The claim's grammar for one (already stripped) line:
`[<time>] <<object>> <message>` with whitespace runs as separators, a
non-empty object containing no `>` and the message being the remainder
of the line after the separating whitespace (possibly empty). -/
def GrammarMatch (l : List Char) (e : Event) : Prop :=
  ∃ w1 w2,
    l = '[' :: e.timestamp ++ ']' ::
        (w1 ++ '<' :: '<' ::
          (e.object ++ '>' :: '>' :: (w2 ++ e.message))) ∧
    TimeShape e.timestamp ∧
    e.object ≠ [] ∧ (∀ c ∈ e.object, c ≠ '>') ∧
    w1 ≠ [] ∧ AllSpace w1 ∧ w2 ≠ [] ∧ AllSpace w2 ∧
    (∀ c, e.message.head? = some c → isSpaceC c = false)

theorem matchHMS_some {l t r : List Char} (h : matchHMS l = some (t, r)) :
    l = t ++ r ∧ HMSShape t := by
  unfold matchHMS at h
  split at h
  · next a b c d e f g hh rest =>
    split at h
    · next hguard =>
      obtain ⟨h1, h2, h3, h4, h5, h6, h7, h8⟩ := hguard
      injection h with h'
      injection h' with ht hr
      subst ht hr h3 h6
      exact ⟨rfl, a, b, d, e, g, hh, rfl, h1, h2, h4, h5, h7, h8⟩
    · exact absurd h (by simp)
  · exact absurd h (by simp)

theorem matchHMS_complete {t : List Char} (h : HMSShape t) (r : List Char) :
    matchHMS (t ++ r) = some (t, r) := by
  obtain ⟨a, b, d, e, g, hh, rfl, h1, h2, h4, h5, h7, h8⟩ := h
  simp only [List.cons_append, List.nil_append, matchHMS]
  split
  · rfl
  · next hneg =>
    exact absurd ⟨h1, h2, by trivial, h4, h5, by trivial, h7, h8⟩ hneg

theorem fracPart_some {l f r : List Char} (h : fracPart l = some (f, r)) :
    l = f ++ r ∧ (f = [] ∨ ∃ ds, f = '.' :: ds ∧ ds ≠ [] ∧ AllDigit ds) := by
  cases l with
  | nil =>
    simp only [fracPart] at h
    injection h with h'
    injection h' with hf hr
    subst hf hr
    exact ⟨rfl, Or.inl rfl⟩
  | cons c rest =>
    simp only [fracPart] at h
    by_cases hc : c = '.'
    · rw [if_pos hc] at h
      by_cases hds : rest.takeWhile digitC = []
      · rw [if_pos hds] at h
        exact absurd h (by simp)
      · rw [if_neg hds] at h
        injection h with h'
        injection h' with hf hr
        subst hf hr hc
        constructor
        · simp only [List.cons_append]
          rw [List.takeWhile_append_dropWhile]
        · exact Or.inr ⟨rest.takeWhile digitC, rfl, hds,
            fun c hc => mem_takeWhile_true hc⟩
    · rw [if_neg hc] at h
      injection h with h'
      injection h' with hf hr
      subst hf hr
      exact ⟨rfl, Or.inl rfl⟩

theorem matchTime_some {l t r : List Char} (h : matchTime l = some (t, r)) :
    l = t ++ r ∧ TimeShape t := by
  unfold matchTime at h
  cases hH : matchHMS l with
  | none => simp only [hH] at h; exact Option.noConfusion h
  | some p =>
    obtain ⟨hms, r2⟩ := p
    simp only [hH] at h
    cases hF : fracPart r2 with
    | none => simp only [hF] at h; exact Option.noConfusion h
    | some q =>
      obtain ⟨f, r'⟩ := q
      simp only [hF] at h
      injection h with h'
      injection h' with ht hr
      subst ht hr
      obtain ⟨hl, hshape⟩ := matchHMS_some hH
      obtain ⟨hr2, hf⟩ := fracPart_some hF
      constructor
      · rw [hl, hr2, List.append_assoc]
      · rcases hf with rfl | ⟨ds, rfl, hne, hdig⟩
        · rw [List.append_nil]
          exact Or.inl hshape
        · exact Or.inr ⟨hms, ds, rfl, hshape, hne, hdig⟩

theorem matchTime_complete {t : List Char} (h : TimeShape t) {hd : Char}
    (R : List Char) (hne : hd ≠ '.') (hnd : digitC hd = false) :
    matchTime (t ++ hd :: R) = some (t, hd :: R) := by
  rcases h with hshape | ⟨core, ds, rfl, hshape, hdne, hdig⟩
  · have h1 := matchHMS_complete hshape (hd :: R)
    have h2 : fracPart (hd :: R) = some ([], hd :: R) := by
      show (if hd = '.' then
              if R.takeWhile digitC = [] then none
              else some ('.' :: R.takeWhile digitC, R.dropWhile digitC)
            else some ([], hd :: R)) = some ([], hd :: R)
      rw [if_neg hne]
    simp only [matchTime, h1, h2, List.append_nil]
  · have h1 := matchHMS_complete hshape ('.' :: (ds ++ hd :: R))
    have htw : (ds ++ hd :: R).takeWhile digitC = ds :=
      takeWhile_app hdig (fun c hc => by
        simp only [List.head?_cons, Option.some.injEq] at hc
        exact hc ▸ hnd)
    have hdw : (ds ++ hd :: R).dropWhile digitC = hd :: R :=
      dropWhile_app hdig (fun c hc => by
        simp only [List.head?_cons, Option.some.injEq] at hc
        exact hc ▸ hnd)
    have h2 : fracPart ('.' :: (ds ++ hd :: R)) = some ('.' :: ds, hd :: R) := by
      show (if ('.' : Char) = '.' then
              if (ds ++ hd :: R).takeWhile digitC = [] then none
              else some ('.' :: (ds ++ hd :: R).takeWhile digitC,
                (ds ++ hd :: R).dropWhile digitC)
            else some ([], '.' :: (ds ++ hd :: R))) = some ('.' :: ds, hd :: R)
      rw [if_pos rfl, htw, hdw, if_neg hdne]
    have e1 : (core ++ '.' :: ds) ++ hd :: R = core ++ '.' :: (ds ++ hd :: R) := by
      simp
    rw [e1]
    simp only [matchTime, h1, h2]

theorem matchLine_forward {l : List Char} {e : Event}
    (h : matchLine l = some e) : GrammarMatch l e := by
  cases l with
  | nil => exact Option.noConfusion h
  | cons c0 r1 =>
    simp only [matchLine] at h
    by_cases hc0 : c0 = '['
    · rw [if_pos hc0] at h
      subst hc0
      unfold matchAfterLB at h
      cases hT : matchTime r1 with
      | none => simp only [hT] at h; exact Option.noConfusion h
      | some p =>
        obtain ⟨t, r2⟩ := p
        simp only [hT] at h
        obtain ⟨hr1, hts⟩ := matchTime_some hT
        cases r2 with
        | nil => exact Option.noConfusion h
        | cons c1 r3 =>
          simp only [matchRBracket] at h
          by_cases hc1 : c1 = ']'
          · rw [if_pos hc1] at h
            subst hc1
            cases r3 with
            | nil => exact Option.noConfusion h
            | cons c r4 =>
              simp only [matchAfterRB] at h
              by_cases hsp : isSpaceC c = true
              · rw [if_pos hsp] at h
                cases h5 : r4.dropWhile isSpaceC with
                | nil => rw [h5] at h; exact Option.noConfusion h
                | cons d1 rest5 =>
                  rw [h5] at h
                  cases rest5 with
                  | nil => exact Option.noConfusion h
                  | cons d2 r6 =>
                    simp only [matchLtLt] at h
                    by_cases hd : d1 = '<' ∧ d2 = '<'
                    · rw [if_pos hd] at h
                      obtain ⟨hd1, hd2⟩ := hd
                      subst hd1 hd2
                      unfold matchObject at h
                      by_cases ho : r6.takeWhile notGt = []
                      · rw [if_pos ho] at h
                        exact Option.noConfusion h
                      · rw [if_neg ho] at h
                        cases h7 : r6.dropWhile notGt with
                        | nil => rw [h7] at h; exact Option.noConfusion h
                        | cons g1 rest7 =>
                          rw [h7] at h
                          cases rest7 with
                          | nil => exact Option.noConfusion h
                          | cons g2 r7 =>
                            simp only [matchGtGt] at h
                            by_cases hg : g1 = '>' ∧ g2 = '>'
                            · rw [if_pos hg] at h
                              obtain ⟨hg1, hg2⟩ := hg
                              subst hg1 hg2
                              cases r7 with
                              | nil => exact Option.noConfusion h
                              | cons c2 r8 =>
                                simp only [matchMsg] at h
                                by_cases hsp2 : isSpaceC c2 = true
                                · rw [if_pos hsp2] at h
                                  injection h with h'
                                  subst h'
                                  refine ⟨c :: r4.takeWhile isSpaceC,
                                    c2 :: r8.takeWhile isSpaceC, ?_, hts, ho, ?_,
                                    by simp, ?_, by simp, ?_, ?_⟩
                                  · have E8 : r8.takeWhile isSpaceC ++
                                        r8.dropWhile isSpaceC = r8 :=
                                      List.takeWhile_append_dropWhile isSpaceC r8
                                    have E6 : r6.takeWhile notGt ++
                                        r6.dropWhile notGt = r6 :=
                                      List.takeWhile_append_dropWhile notGt r6
                                    have E4 : r4.takeWhile isSpaceC ++
                                        r4.dropWhile isSpaceC = r4 :=
                                      List.takeWhile_append_dropWhile isSpaceC r4
                                    show '[' :: r1 = '[' :: (t ++ ']' :: c ::
                                      (r4.takeWhile isSpaceC ++ '<' :: '<' ::
                                        (r6.takeWhile notGt ++ '>' :: '>' :: c2 ::
                                          (r8.takeWhile isSpaceC ++
                                            r8.dropWhile isSpaceC))))
                                    rw [hr1, E8, ← h7, E6, ← h5, E4]
                                  · intro ch hch
                                    have := mem_takeWhile_true hch
                                    simpa [notGt] using this
                                  · intro ch hch
                                    rcases List.mem_cons.1 hch with h1 | h1
                                    · rw [h1]; exact hsp
                                    · exact mem_takeWhile_true h1
                                  · intro ch hch
                                    rcases List.mem_cons.1 hch with h1 | h1
                                    · rw [h1]; exact hsp2
                                    · exact mem_takeWhile_true h1
                                  · intro ch hch
                                    exact head?_dropWhile_false hch
                                · rw [if_neg hsp2] at h
                                  exact Option.noConfusion h
                            · rw [if_neg hg] at h
                              exact Option.noConfusion h
                    · rw [if_neg hd] at h
                      exact Option.noConfusion h
              · rw [if_neg hsp] at h
                exact Option.noConfusion h
          · rw [if_neg hc1] at h
            exact Option.noConfusion h
    · rw [if_neg hc0] at h
      exact Option.noConfusion h

theorem matchLine_backward {l : List Char} {e : Event}
    (h : GrammarMatch l e) : matchLine l = some e := by
  obtain ⟨w1, w2, hl, hts, hone, hogt, hw1ne, hw1sp, hw2ne, hw2sp, hmsg⟩ := h
  obtain ⟨t, o, m⟩ := e
  dsimp only at hl hone hogt hmsg hts ⊢
  obtain ⟨c1, w1t, rfl⟩ : ∃ c w', w1 = c :: w' := by
    cases w1 with
    | nil => exact absurd rfl hw1ne
    | cons c w' => exact ⟨c, w', rfl⟩
  obtain ⟨c2, w2t, rfl⟩ : ∃ c w', w2 = c :: w' := by
    cases w2 with
    | nil => exact absurd rfl hw2ne
    | cons c w' => exact ⟨c, w', rfl⟩
  subst hl
  have hmt := matchTime_complete hts
    (c1 :: w1t ++ '<' :: '<' :: (o ++ '>' :: '>' :: (c2 :: w2t ++ m)))
    (show (']' : Char) ≠ '.' by decide) (show digitC ']' = false by decide)
  show matchAfterLB (t ++ ']' ::
    (c1 :: w1t ++ '<' :: '<' :: (o ++ '>' :: '>' :: (c2 :: w2t ++ m)))) =
    some ⟨t, o, m⟩
  unfold matchAfterLB
  simp only [hmt]
  show matchAfterRB t
    (c1 :: w1t ++ '<' :: '<' :: (o ++ '>' :: '>' :: (c2 :: w2t ++ m))) =
    some ⟨t, o, m⟩
  simp only [List.cons_append, matchAfterRB,
    if_pos (hw1sp c1 (List.mem_cons_self c1 w1t))]
  have hdw1 : (w1t ++ '<' :: '<' :: (o ++ '>' :: '>' :: c2 :: (w2t ++ m))).dropWhile
      isSpaceC = '<' :: '<' :: (o ++ '>' :: '>' :: c2 :: (w2t ++ m)) := by
    refine dropWhile_app (fun ch hch => hw1sp ch (List.mem_cons_of_mem c1 hch)) ?_
    intro ch hch
    simp only [List.head?_cons, Option.some.injEq] at hch
    subst hch
    decide
  rw [hdw1]
  simp only [matchLtLt]
  have hogtb : ∀ ch ∈ o, notGt ch = true := by
    intro ch hch
    simp only [notGt, bne_iff_ne, ne_eq]
    exact hogt ch hch
  have htwo : (o ++ '>' :: '>' :: c2 :: (w2t ++ m)).takeWhile notGt = o := by
    refine takeWhile_app hogtb ?_
    intro ch hch
    simp only [List.head?_cons, Option.some.injEq] at hch
    subst hch
    decide
  have hdwo : (o ++ '>' :: '>' :: c2 :: (w2t ++ m)).dropWhile notGt =
      '>' :: '>' :: c2 :: (w2t ++ m) := by
    refine dropWhile_app hogtb ?_
    intro ch hch
    simp only [List.head?_cons, Option.some.injEq] at hch
    subst hch
    decide
  unfold matchObject
  rw [htwo, hdwo, if_neg hone]
  simp only [matchGtGt]
  simp only [List.cons_append, matchMsg,
    if_pos (hw2sp c2 (List.mem_cons_self c2 w2t))]
  have hdw2 : (w2t ++ m).dropWhile isSpaceC = m := by
    refine dropWhile_app (fun ch hch => hw2sp ch (List.mem_cons_of_mem c2 hch)) ?_
    intro ch hch
    exact hmsg ch hch
  rw [hdw2]
  simp

theorem matchLine_iff (l : List Char) (e : Event) :
    matchLine l = some e ↔ GrammarMatch l e :=
  ⟨matchLine_forward, matchLine_backward⟩

/-- C3: for every input string, `parse_events` is a total function (the
model needs no error case, so the parse never raises); the stripped
lines are processed in input order, each line contributing exactly the
events its match yields (one if it matches, none otherwise); and a line
matches the pattern exactly when it decomposes per the spec grammar
`[<time>] <<object>> <message>` with a two-digit `HH:MM:SS` time plus
optional fraction, a non-empty object free of the character `>`, and the
message being the remainder of the line. -/
theorem C3_parse_events_grammar :
    (∀ raw : List Char,
      parse_events raw =
        (splitlines raw).filterMap (fun l => matchLine (strip l))) ∧
    (∀ (l : List Char) (e : Event), matchLine l = some e ↔ GrammarMatch l e) := by
  constructor
  · intro raw
    unfold parse_events
    have hstep : lineStep = fun l => matchLine (strip l) := by
      funext l
      unfold lineStep
      by_cases h : strip l = []
      · rw [if_pos h, h]
        rfl
      · rw [if_neg h]
    rw [hstep]
  · exact matchLine_iff

/-! Timestamp conversion: model of `create_dataframe`. -/

/-- Model of a Python `datetime` value (`strptime` defaults the date to
1900-01-01). -/
structure DateTime where
  year : Nat
  month : Nat
  day : Nat
  hour : Nat
  minute : Nat
  second : Nat
  usec : Nat
deriving DecidableEq, Repr

/-- Total order key of a `DateTime` (mixed-radix value). -/
def dtKey (t : DateTime) : Nat :=
  ((((t.year * 13 + t.month) * 32 + t.day) * 24 + t.hour) * 60 + t.minute) *
      60000000 + t.second * 1000000 + t.usec

/-- Model of one numeric field of `strptime`: the regex branch
`M[0-lo]|[0-hi]\d|\d` reads two digits when their value stays within
`maxv`, else one digit. -/
def read2or1 (maxv : Nat) (l : List Char) : Option (Nat × List Char) :=
  match l with
  | a :: b :: rest =>
    if digitC a = true ∧ digitC b = true ∧ dval a * 10 + dval b ≤ maxv then
      some (dval a * 10 + dval b, rest)
    else if digitC a then some (dval a, b :: rest) else none
  | [a] => if digitC a then some (dval a, []) else none
  | [] => none

/-- Expect a single `:` separator. -/
def expectColon (l : List Char) : Option (List Char) :=
  match l with
  | c :: rest => if c = ':' then some rest else none
  | [] => none

/-- Numeric value of a digit run. -/
def natOfDigits (l : List Char) : Nat :=
  l.foldl (fun n c => n * 10 + dval c) 0

/-- Shared `HH:MM:SS` part of both `strptime` formats, with the
`%H` 0-23, `%M` 0-59, `%S` 0-61 field ranges. -/
def strptimeCore (l : List Char) : Option (Nat × Nat × Nat × List Char) :=
  match read2or1 23 l with
  | none => none
  | some (h, r1) =>
    match expectColon r1 with
    | none => none
    | some r2 =>
      match read2or1 59 r2 with
      | none => none
      | some (m, r3) =>
        match expectColon r3 with
        | none => none
        | some r4 =>
          match read2or1 61 r4 with
          | none => none
          | some (s, r5) => some (h, m, s, r5)

/-- Model of `datetime.strptime(s, "%H:%M:%S.%f")`: `%f` takes one to
six digits, right-padded to microseconds; the whole string must be
consumed and the `datetime` constructor requires `second ≤ 59`. -/
def strptime_frac (l : List Char) : Option DateTime :=
  match strptimeCore l with
  | none => none
  | some (h, m, s, rest) =>
    match rest with
    | [] => none
    | c :: r =>
      if c = '.' ∧ r ≠ [] ∧ r.all digitC = true ∧ r.length ≤ 6 ∧ s ≤ 59 then
        some ⟨1900, 1, 1, h, m, s, natOfDigits r * 10 ^ (6 - r.length)⟩
      else none

/-- Model of `datetime.strptime(s, "%H:%M:%S")`: the whole string must
be consumed and the `datetime` constructor requires `second ≤ 59`. -/
def strptime_whole (l : List Char) : Option DateTime :=
  match strptimeCore l with
  | none => none
  | some (h, m, s, rest) =>
    if rest = [] ∧ s ≤ 59 then some ⟨1900, 1, 1, h, m, s, 0⟩ else none

/-- Model of the `try`/`except ValueError` block of `create_dataframe`:
the fractional format is tried first; when it raises, the whole-seconds
format is tried, whose failure is not caught. -/
def parse_timestamp (l : List Char) : Option DateTime :=
  match strptime_frac l with
  | some t => some t
  | none => strptime_whole l

/-- One row of the `DataFrame` built by `create_dataframe`. -/
structure Row where
  timestamp : DateTime
  object : List Char
  message : List Char
deriving DecidableEq, Repr

/-- Model of `create_dataframe`: convert each event's timestamp in
order; a conversion failure of both formats is an uncaught `ValueError`,
modelled by a `none` overall result. -/
def create_dataframe : List Event → Option (List Row)
  | [] => some []
  | e :: rest =>
    match parse_timestamp e.timestamp with
    | none => none
    | some t =>
      match create_dataframe rest with
      | none => none
      | some rows => some (Row.mk t e.object e.message :: rows)

example : parse_timestamp "19:58:12.174".toList =
    some ⟨1900, 1, 1, 19, 58, 12, 174000⟩ := by decide

example : parse_timestamp "01:00:00".toList =
    some ⟨1900, 1, 1, 1, 0, 0, 0⟩ := by decide

example : parse_timestamp "99:00:00".toList = none := by decide

example : parse_timestamp "10:00:00.1234567".toList = none := by decide

/-- C1 (counterexample): the line `[99:00:00] <<A>> x` matches the outer
pattern (and the spec grammar), both strptime formats fail on its hour
field, and `create_dataframe` then returns `none` — the model of the
uncaught `ValueError` of the second `strptime` call — instead of
excluding the event and producing a model. -/
theorem C1_counterexample :
    matchLine "[99:00:00] <<A>> x".toList =
      some ⟨"99:00:00".toList, "A".toList, "x".toList⟩ ∧
    strptime_frac "99:00:00".toList = none ∧
    strptime_whole "99:00:00".toList = none ∧
    create_dataframe [⟨"99:00:00".toList, "A".toList, "x".toList⟩] = none ∧
    create_dataframe [⟨"99:00:00".toList, "A".toList, "x".toList⟩] ≠
      some [] := by
  refine ⟨by decide, by decide, by decide, by decide, by decide⟩

/-- C1 (amended): timestamp conversion tries the fractional-seconds
format first and falls back to the whole-seconds format only when the
first raises; when both formats fail for some event, the `ValueError`
of the fallback call is uncaught, so the whole parse-to-model stage
fails (returns no model at all) rather than excluding just that
event. -/
theorem C1_amended_fallback :
    (∀ s t, strptime_frac s = some t → parse_timestamp s = some t) ∧
    (∀ s, strptime_frac s = none → parse_timestamp s = strptime_whole s) ∧
    (∀ (events : List Event) (e : Event), e ∈ events →
      parse_timestamp e.timestamp = none → create_dataframe events = none) := by
  refine ⟨?_, ?_, ?_⟩
  · intro s t h
    unfold parse_timestamp
    rw [h]
  · intro s h
    unfold parse_timestamp
    rw [h]
  · intro events e he hnone
    induction events with
    | nil => cases he
    | cons a rest ih =>
      rcases List.mem_cons.1 he with rfl | hmem
      · unfold create_dataframe
        simp only [hnone]
      · unfold create_dataframe
        cases hpt : parse_timestamp a.timestamp with
        | none => rfl
        | some t' =>
          simp only [hpt, ih hmem]

/-- C1 (witness): the fallback order and the failure propagation hold at
concrete inputs. -/
theorem C1_amended_witness :
    parse_timestamp "19:58:12.174".toList =
      some ⟨1900, 1, 1, 19, 58, 12, 174000⟩ ∧
    create_dataframe [⟨"99:00:00".toList, "A".toList, "x".toList⟩] = none :=
  ⟨C1_amended_fallback.1 "19:58:12.174".toList
      ⟨1900, 1, 1, 19, 58, 12, 174000⟩ (by decide),
   C1_amended_fallback.2.2 [⟨"99:00:00".toList, "A".toList, "x".toList⟩]
      ⟨"99:00:00".toList, "A".toList, "x".toList⟩ (by decide) (by decide)⟩

/-- C2 (counterexample): `create_dataframe` keeps the parse order and
never sorts — two events given in descending time order come out still
in descending order, so the model is not sorted by timestamp
ascending. -/
theorem C2_counterexample :
    create_dataframe [⟨"02:00:00".toList, "A".toList, "x".toList⟩,
        ⟨"01:00:00".toList, "B".toList, "y".toList⟩] =
      some [⟨⟨1900, 1, 1, 2, 0, 0, 0⟩, "A".toList, "x".toList⟩,
        ⟨⟨1900, 1, 1, 1, 0, 0, 0⟩, "B".toList, "y".toList⟩] ∧
    ¬ List.Sorted (· ≤ ·)
      ([⟨⟨1900, 1, 1, 2, 0, 0, 0⟩, "A".toList, "x".toList⟩,
        ⟨⟨1900, 1, 1, 1, 0, 0, 0⟩, "B".toList, "y".toList⟩].map
          (fun r : Row => dtKey r.timestamp)) := by
  refine ⟨by decide, by decide⟩

/-- C2 (amended): the model keeps the events exactly in parse order —
objects, messages and converted timestamps are the per-index images of
the input events, with no reordering at all; in particular two events
with equal timestamps keep their relative input order. -/
theorem C2_amended_order :
    ∀ (events : List Event) (rows : List Row),
      create_dataframe events = some rows →
      rows.map Row.object = events.map Event.object ∧
      rows.map Row.message = events.map Event.message ∧
      rows.map (fun r => some r.timestamp) =
        events.map (fun e => parse_timestamp e.timestamp) := by
  intro events
  induction events with
  | nil =>
    intro rows h
    injection h with h'
    subst h'
    exact ⟨rfl, rfl, rfl⟩
  | cons e rest ih =>
    intro rows h
    unfold create_dataframe at h
    cases hpt : parse_timestamp e.timestamp with
    | none =>
      simp only [hpt] at h
      exact Option.noConfusion h
    | some t =>
      simp only [hpt] at h
      cases hrec : create_dataframe rest with
      | none =>
        simp only [hrec] at h
        exact Option.noConfusion h
      | some rs =>
        simp only [hrec] at h
        injection h with h'
        subst h'
        obtain ⟨h1, h2, h3⟩ := ih rs hrec
        refine ⟨?_, ?_, ?_⟩ <;> simp [h1, h2, h3, hpt]

/-- C2 (witness): two events sharing the timestamp `10:00:00` keep their
input order `A` before `B` in the model. -/
theorem C2_amended_witness :
    ([(⟨⟨1900, 1, 1, 10, 0, 0, 0⟩, "A".toList, "x".toList⟩ : Row),
      ⟨⟨1900, 1, 1, 10, 0, 0, 0⟩, "B".toList, "y".toList⟩].map Row.object =
      [(⟨"10:00:00".toList, "A".toList, "x".toList⟩ : Event),
       ⟨"10:00:00".toList, "B".toList, "y".toList⟩].map Event.object) ∧
    ([(⟨⟨1900, 1, 1, 10, 0, 0, 0⟩, "A".toList, "x".toList⟩ : Row),
      ⟨⟨1900, 1, 1, 10, 0, 0, 0⟩, "B".toList, "y".toList⟩].map Row.message =
      [(⟨"10:00:00".toList, "A".toList, "x".toList⟩ : Event),
       ⟨"10:00:00".toList, "B".toList, "y".toList⟩].map Event.message) ∧
    ([(⟨⟨1900, 1, 1, 10, 0, 0, 0⟩, "A".toList, "x".toList⟩ : Row),
      ⟨⟨1900, 1, 1, 10, 0, 0, 0⟩, "B".toList, "y".toList⟩].map
        (fun r => some r.timestamp) =
      [(⟨"10:00:00".toList, "A".toList, "x".toList⟩ : Event),
       ⟨"10:00:00".toList, "B".toList, "y".toList⟩].map
        (fun e => parse_timestamp e.timestamp)) :=
  C2_amended_order _ _ (by decide)

/-! Figure construction: model of `create_figure`. -/

/-- Model of `pandas.Series.unique`: distinct values in first-occurrence
order. -/
def uniqueFirst : List (List Char) → List (List Char)
  | [] => []
  | a :: rest => a :: (uniqueFirst rest).filter (fun b => decide (b ≠ a))

theorem mem_uniqueFirst (x : List Char) :
    ∀ l : List (List Char), x ∈ uniqueFirst l ↔ x ∈ l := by
  intro l
  induction l with
  | nil => simp [uniqueFirst]
  | cons a rest ih =>
    simp only [uniqueFirst, List.mem_cons, List.mem_filter, ih,
      decide_eq_true_eq]
    by_cases hx : x = a
    · simp [hx]
    · simp [hx]

theorem nodup_uniqueFirst : ∀ l : List (List Char), (uniqueFirst l).Nodup := by
  intro l
  induction l with
  | nil => exact List.nodup_nil
  | cons a rest ih =>
    refine List.nodup_cons.2 ⟨?_, List.Nodup.filter _ ih⟩
    intro hmem
    have := (List.mem_filter.1 hmem).2
    simp at this

/-- The fixed palette `plotly.express.colors.qualitative.Plotly`. -/
def palette : List String :=
  ["#636EFA", "#EF553B", "#00CC96", "#AB63FA", "#FFA15A",
   "#19D3F3", "#FF6692", "#B6E880", "#FF97FF", "#FECB52"]

/-- Model of `sorted(df['object'].unique())`: the distinct object labels
in lexicographic order (Python compares strings by code point, matching
the lexicographic order on `List Char`). -/
def unique_objects (df : List Row) : List (List Char) :=
  List.insertionSort (· ≤ ·) (uniqueFirst (df.map Row.object))

theorem sorted_unique_objects (df : List Row) :
    List.Sorted (· ≤ ·) (unique_objects df) :=
  List.sorted_insertionSort _ _

theorem nodup_unique_objects (df : List Row) : (unique_objects df).Nodup :=
  ((List.perm_insertionSort _ _).nodup_iff).2 (nodup_uniqueFirst _)

theorem mem_unique_objects (df : List Row) (o : List Char) :
    o ∈ unique_objects df ↔ o ∈ df.map Row.object := by
  unfold unique_objects
  rw [List.mem_insertionSort, mem_uniqueFirst]

/-- Model of a Python dict comprehension over `enumerate(objs)`: an
association list in insertion order, key `o` at index `i` mapped to
`f i`. -/
def assocWith {β : Type} (f : Nat → β) : Nat → List (List Char) → List (List Char × β)
  | _, [] => []
  | k, o :: rest => (o, f k) :: assocWith f (k + 1) rest

theorem lookup_assocWith {β : Type} (f : Nat → β) :
    ∀ (objs : List (List Char)) (k i : Nat) (hi : i < objs.length),
      objs.Nodup →
      List.lookup (objs.get ⟨i, hi⟩) (assocWith f k objs) = some (f (k + i)) := by
  intro objs
  induction objs with
  | nil => intro k i hi _; exact absurd hi (by simp)
  | cons o rest ih =>
    intro k i hi hnd
    obtain ⟨hno, hndr⟩ := List.nodup_cons.1 hnd
    cases i with
    | zero =>
      simp [assocWith, List.lookup]
    | succ n =>
      have hn : n < rest.length := Nat.lt_of_succ_lt_succ hi
      have hne : rest.get ⟨n, hn⟩ ≠ o := by
        intro hEq
        exact hno (hEq ▸ rest.get_mem n hn)
      have hbeq : (rest.get ⟨n, hn⟩ == o) = false :=
        beq_eq_false_iff_ne.2 hne
      simp only [assocWith, List.get_cons_succ, List.lookup, hbeq]
      have harith : k + 1 + n = k + (n + 1) := by omega
      rw [ih (k + 1) n hn hndr, harith]

/-- The dict `object_to_y` of `create_figure`: sorted distinct label at
index `i` mapped to lane `i + 1`. -/
def object_to_y (df : List Row) : List (List Char × Nat) :=
  assocWith (fun i => i + 1) 0 (unique_objects df)

/-- The dict `object_to_color` of `create_figure`: sorted distinct label
at index `i` mapped to `colors[i % len(colors)]`. -/
def object_to_color (df : List Row) : List (List Char × String) :=
  assocWith (fun i => palette.getD (i % palette.length) "") 0 (unique_objects df)

/-- A row after `create_figure` added the `y` column (`none` models the
`NaN` pandas would produce for an unmapped object). -/
structure RowY where
  timestamp : DateTime
  object : List Char
  message : List Char
  y : Option Nat
deriving DecidableEq, Repr

/-- Zero-left-pad the decimal representation of `n` to width `w`. -/
def padNum (w n : Nat) : String :=
  String.mk (List.replicate (w - (toString n).length) '0') ++ toString n

/-- Model of `datetime.isoformat()` (fraction omitted when the
microsecond field is zero). -/
def isoformat (t : DateTime) : String :=
  padNum 4 t.year ++ "-" ++ padNum 2 t.month ++ "-" ++ padNum 2 t.day ++ "T" ++
    padNum 2 t.hour ++ ":" ++ padNum 2 t.minute ++ ":" ++ padNum 2 t.second ++
    (if t.usec = 0 then "" else "." ++ padNum 6 t.usec)

/-- One scatter marker: position, color and the opaque `customdata`
payload `(isoformat timestamp, object, message)`. -/
structure Marker where
  x : DateTime
  y : Option Nat
  color : Option String
  cd_ts : String
  cd_obj : List Char
  cd_msg : List Char
deriving DecidableEq, Repr

/-- The crosshair line shape added for a selected time. -/
structure Shape where
  x0 : DateTime
  x1 : DateTime
  y0 : ℚ
  y1 : ℚ
deriving DecidableEq, Repr

/-- The declarative scene a figure amounts to: markers, shapes and the
y-axis tick configuration. -/
structure Scene where
  markers : List Marker
  shapes : List Shape
  ytickvals : List Nat
  yticktext : List (List Char)
deriving DecidableEq, Repr

/-- Model of `create_figure`: lane and color assignment from the sorted
distinct labels, the in-place `df["y"] = ...` column addition (returned
as the first component), one marker per row in row order, the optional
crosshair at the clicked time spanning `y` 0.8 to `len(objs) + 0.2`, and
y-axis ticks at the lane positions labelled by the objects. -/
def create_figure (df : List Row) (clicked_time : Option DateTime) :
    List RowY × Scene :=
  let objs := unique_objects df
  let o2y := object_to_y df
  let o2c := object_to_color df
  let dfY := df.map fun r =>
    RowY.mk r.timestamp r.object r.message (List.lookup r.object o2y)
  let markers := dfY.map fun r =>
    Marker.mk r.timestamp r.y (List.lookup r.object o2c)
      (isoformat r.timestamp) r.object r.message
  let shapes : List Shape :=
    match clicked_time with
    | none => []
    | some t => [Shape.mk t t (4 / 5) ((objs.length : ℚ) + 1 / 5)]
  (dfY, Scene.mk markers shapes (o2y.map Prod.snd) (o2y.map Prod.fst))

/-- C4: the lane assignment is a pure function of the distinct
object-label set — any two row lists with the same labels (in any order,
with any duplicate counts) get the identical `object_to_y` dict, the
sorted distinct labels mapped to lanes 1..N. -/
theorem C4_lane_assignment_pure :
    ∀ df1 df2 : List Row,
      (∀ o, o ∈ df1.map Row.object ↔ o ∈ df2.map Row.object) →
      object_to_y df1 = object_to_y df2 := by
  intro df1 df2 h
  have hu : unique_objects df1 = unique_objects df2 := by
    refine List.eq_of_perm_of_sorted ?_ (sorted_unique_objects df1)
      (sorted_unique_objects df2)
    refine (List.perm_ext_iff_of_nodup (nodup_unique_objects df1)
      (nodup_unique_objects df2)).2 ?_
    intro o
    rw [mem_unique_objects, mem_unique_objects]
    exact h o
  unfold object_to_y
  rw [hu]

/-- C4 (witness): a reordered row list with duplicates gets the same
lane dict as a clean one over the same label set. -/
theorem C4_witness :
    object_to_y [⟨⟨1900, 1, 1, 1, 0, 0, 0⟩, "B".toList, "x".toList⟩,
      ⟨⟨1900, 1, 1, 2, 0, 0, 0⟩, "A".toList, "y".toList⟩,
      ⟨⟨1900, 1, 1, 3, 0, 0, 0⟩, "B".toList, "z".toList⟩] =
    object_to_y [⟨⟨1900, 1, 1, 9, 0, 0, 0⟩, "A".toList, "q".toList⟩,
      ⟨⟨1900, 1, 1, 8, 0, 0, 0⟩, "B".toList, "r".toList⟩] :=
  C4_lane_assignment_pure _ _ (by
    intro o
    simp only [List.map_cons, List.map_nil, List.mem_cons, List.not_mem_nil,
      or_false]
    tauto)

/-- The palette entries are pairwise distinct (checked by evaluation). -/
theorem palette_getD_inj :
    ∀ a b : Fin 10,
      (palette.getD a.val "" = palette.getD b.val "") ↔ a = b := by decide

/-- C5: the colors of the labels at positions `i` and `j` of the sorted
distinct-label order coincide exactly when `i` and `j` are congruent
modulo the palette size. -/
theorem C5_color_iff_mod :
    ∀ (df : List Row) (i j : Nat) (hi : i < (unique_objects df).length)
      (hj : j < (unique_objects df).length),
      (List.lookup ((unique_objects df).get ⟨i, hi⟩) (object_to_color df) =
        List.lookup ((unique_objects df).get ⟨j, hj⟩) (object_to_color df)) ↔
      i % palette.length = j % palette.length := by
  intro df i j hi hj
  have hnd := nodup_unique_objects df
  unfold object_to_color
  rw [lookup_assocWith _ _ 0 i hi hnd, lookup_assocWith _ _ 0 j hj hnd]
  simp only [Nat.zero_add, Option.some.injEq]
  have hL : palette.length = 10 := rfl
  rw [hL]
  constructor
  · intro h
    have h1 : i % 10 < 10 := Nat.mod_lt _ (by norm_num)
    have h2 : j % 10 < 10 := Nat.mod_lt _ (by norm_num)
    exact congrArg Fin.val ((palette_getD_inj ⟨i % 10, h1⟩ ⟨j % 10, h2⟩).1 h)
  · intro h
    rw [h]

/-- C5 (witness): with two labels, the colors at sorted positions 0 and
1 agree exactly when `0 ≡ 1` mod the palette size (they do not). -/
theorem C5_witness :
    (List.lookup ((unique_objects [⟨⟨1900, 1, 1, 1, 0, 0, 0⟩, "A".toList,
        "x".toList⟩, ⟨⟨1900, 1, 1, 2, 0, 0, 0⟩, "B".toList,
        "y".toList⟩]).get ⟨0, by decide⟩)
      (object_to_color [⟨⟨1900, 1, 1, 1, 0, 0, 0⟩, "A".toList, "x".toList⟩,
        ⟨⟨1900, 1, 1, 2, 0, 0, 0⟩, "B".toList, "y".toList⟩]) =
     List.lookup ((unique_objects [⟨⟨1900, 1, 1, 1, 0, 0, 0⟩, "A".toList,
        "x".toList⟩, ⟨⟨1900, 1, 1, 2, 0, 0, 0⟩, "B".toList,
        "y".toList⟩]).get ⟨1, by decide⟩)
      (object_to_color [⟨⟨1900, 1, 1, 1, 0, 0, 0⟩, "A".toList, "x".toList⟩,
        ⟨⟨1900, 1, 1, 2, 0, 0, 0⟩, "B".toList, "y".toList⟩])) ↔
    0 % palette.length = 1 % palette.length :=
  C5_color_iff_mod _ 0 1 (by decide) (by decide)

/-- C6 (counterexample): the crosshair's lower end sits at `y = 0.8`,
which is `0.2` below lane 1 — not `0.8` below lane 1 as the claim reads
(that would be `y = 1 - 0.8 = 0.2`). -/
theorem C6_counterexample :
    ((create_figure [⟨⟨1900, 1, 1, 10, 0, 0, 0⟩, "A".toList, "x".toList⟩]
        (some ⟨1900, 1, 1, 10, 0, 0, 0⟩)).2.shapes.map Shape.y0 = [4 / 5]) ∧
    ¬ ((4 : ℚ) / 5 = 1 - 4 / 5) := by
  constructor
  · rfl
  · norm_num

/-- C6 (amended): rendering with no selected time yields no crosshair;
with a selected time `t` it yields exactly one crosshair line at `t`
(any `t`, whether or not an event lies there) spanning from `y = 0.8`
(0.2 below lane 1) to `0.2` above lane N, and the markers and the
y-axis tick configuration are identical with and without the
selection. -/
theorem C6_amended_crosshair :
    ∀ (df : List Row) (t : DateTime), df ≠ [] →
      ((create_figure df none).2.shapes = [] ∧
       (create_figure df (some t)).2.shapes =
         [⟨t, t, 4 / 5, ((unique_objects df).length : ℚ) + 1 / 5⟩] ∧
       (1 : ℚ) - 4 / 5 = 1 / 5 ∧
       (create_figure df (some t)).2.markers = (create_figure df none).2.markers ∧
       (create_figure df (some t)).2.ytickvals =
         (create_figure df none).2.ytickvals ∧
       (create_figure df (some t)).2.yticktext =
         (create_figure df none).2.yticktext) := by
  intro df t h
  exact ⟨rfl, rfl, by norm_num, rfl, rfl, rfl⟩

/-- C6 (witness): the amended rendering contract at a concrete one-lane
model and time. -/
theorem C6_amended_witness :
    ((create_figure [⟨⟨1900, 1, 1, 10, 0, 0, 0⟩, "A".toList, "x".toList⟩]
        none).2.shapes = [] ∧
     (create_figure [⟨⟨1900, 1, 1, 10, 0, 0, 0⟩, "A".toList, "x".toList⟩]
        (some ⟨1900, 1, 1, 11, 0, 0, 0⟩)).2.shapes =
       [⟨⟨1900, 1, 1, 11, 0, 0, 0⟩, ⟨1900, 1, 1, 11, 0, 0, 0⟩, 4 / 5,
         ((unique_objects [⟨⟨1900, 1, 1, 10, 0, 0, 0⟩, "A".toList,
           "x".toList⟩]).length : ℚ) + 1 / 5⟩] ∧
     (1 : ℚ) - 4 / 5 = 1 / 5 ∧
     (create_figure [⟨⟨1900, 1, 1, 10, 0, 0, 0⟩, "A".toList, "x".toList⟩]
        (some ⟨1900, 1, 1, 11, 0, 0, 0⟩)).2.markers =
       (create_figure [⟨⟨1900, 1, 1, 10, 0, 0, 0⟩, "A".toList, "x".toList⟩]
        none).2.markers ∧
     (create_figure [⟨⟨1900, 1, 1, 10, 0, 0, 0⟩, "A".toList, "x".toList⟩]
        (some ⟨1900, 1, 1, 11, 0, 0, 0⟩)).2.ytickvals =
       (create_figure [⟨⟨1900, 1, 1, 10, 0, 0, 0⟩, "A".toList, "x".toList⟩]
        none).2.ytickvals ∧
     (create_figure [⟨⟨1900, 1, 1, 10, 0, 0, 0⟩, "A".toList, "x".toList⟩]
        (some ⟨1900, 1, 1, 11, 0, 0, 0⟩)).2.yticktext =
       (create_figure [⟨⟨1900, 1, 1, 10, 0, 0, 0⟩, "A".toList, "x".toList⟩]
        none).2.yticktext) :=
  C6_amended_crosshair _ _ (by simp)

/-- C10: `create_figure` updates its `DataFrame` argument to the same
rows in the same order, each extended with exactly the new column `y`
holding the lane of the row's object (looked up in the lane dict, where
every object of the frame is present with its sorted-position lane). -/
theorem C10_y_column :
    ∀ (df : List Row) (clicked : Option DateTime), df ≠ [] →
      ((create_figure df clicked).1 =
        df.map (fun r => RowY.mk r.timestamp r.object r.message
          (List.lookup r.object (object_to_y df))) ∧
       ∀ r ∈ df, ∃ i hi, (unique_objects df).get ⟨i, hi⟩ = r.object ∧
         List.lookup r.object (object_to_y df) = some (i + 1)) := by
  intro df clicked h
  refine ⟨rfl, ?_⟩
  intro r hr
  have hmem : r.object ∈ unique_objects df :=
    (mem_unique_objects _ _).2 (List.mem_map_of_mem Row.object hr)
  obtain ⟨⟨i, hi⟩, hget⟩ := List.mem_iff_get.1 hmem
  refine ⟨i, hi, hget, ?_⟩
  rw [← hget]
  have hl := lookup_assocWith (fun i => i + 1) (unique_objects df) 0 i hi
    (nodup_unique_objects df)
  simpa [object_to_y] using hl

/-- C10 (witness): the column addition at a concrete two-row frame. -/
theorem C10_witness :
    ((create_figure [⟨⟨1900, 1, 1, 1, 0, 0, 0⟩, "B".toList, "x".toList⟩,
        ⟨⟨1900, 1, 1, 2, 0, 0, 0⟩, "A".toList, "y".toList⟩] none).1 =
      [(⟨⟨1900, 1, 1, 1, 0, 0, 0⟩, "B".toList, "x".toList⟩ : Row),
       ⟨⟨1900, 1, 1, 2, 0, 0, 0⟩, "A".toList, "y".toList⟩].map
        (fun r => RowY.mk r.timestamp r.object r.message
          (List.lookup r.object (object_to_y
            [⟨⟨1900, 1, 1, 1, 0, 0, 0⟩, "B".toList, "x".toList⟩,
             ⟨⟨1900, 1, 1, 2, 0, 0, 0⟩, "A".toList, "y".toList⟩]))) ∧
     ∀ r ∈ [(⟨⟨1900, 1, 1, 1, 0, 0, 0⟩, "B".toList, "x".toList⟩ : Row),
        ⟨⟨1900, 1, 1, 2, 0, 0, 0⟩, "A".toList, "y".toList⟩],
       ∃ i hi, (unique_objects [⟨⟨1900, 1, 1, 1, 0, 0, 0⟩, "B".toList,
           "x".toList⟩, ⟨⟨1900, 1, 1, 2, 0, 0, 0⟩, "A".toList,
           "y".toList⟩]).get ⟨i, hi⟩ = r.object ∧
         List.lookup r.object (object_to_y
           [⟨⟨1900, 1, 1, 1, 0, 0, 0⟩, "B".toList, "x".toList⟩,
            ⟨⟨1900, 1, 1, 2, 0, 0, 0⟩, "A".toList, "y".toList⟩]) =
           some (i + 1)) :=
  C10_y_column _ none (by simp)

/-! Callback layer: model of `update_timeline_callback` and
`display_event`. -/

/-- Read exactly `n` digits, accumulating their value. -/
def readDigitsAux : Nat → Nat → List Char → Option (Nat × List Char)
  | 0, acc, l => some (acc, l)
  | n + 1, acc, l =>
    match l with
    | c :: rest =>
      if digitC c then readDigitsAux n (acc * 10 + dval c) rest else none
    | [] => none

/-- Expect one given literal character. -/
def expectChar (ch : Char) (l : List Char) : Option (List Char) :=
  match l with
  | c :: rest => if c = ch then some rest else none
  | [] => none

/-- Time part of `datetime.fromisoformat`, restricted to the
`HH:MM:SS[.fff[fff]]` shapes the application itself emits. -/
def isoTime (l : List Char) : Option (Nat × Nat × Nat × Nat) :=
  match readDigitsAux 2 0 l with
  | none => none
  | some (h, r1) =>
    match expectChar ':' r1 with
    | none => none
    | some r2 =>
      match readDigitsAux 2 0 r2 with
      | none => none
      | some (m, r3) =>
        match expectChar ':' r3 with
        | none => none
        | some r4 =>
          match readDigitsAux 2 0 r4 with
          | none => none
          | some (s, r5) =>
            match r5 with
            | [] => if h ≤ 23 ∧ m ≤ 59 ∧ s ≤ 59 then some (h, m, s, 0) else none
            | c :: fr =>
              if c = '.' ∧ fr ≠ [] ∧ fr.all digitC = true ∧
                  (fr.length = 3 ∨ fr.length = 6) ∧
                  h ≤ 23 ∧ m ≤ 59 ∧ s ≤ 59 then
                some (h, m, s,
                  if fr.length = 3 then natOfDigits fr * 1000 else natOfDigits fr)
              else none

/-- Model of `datetime.fromisoformat` (Python accepts any single
character in the separator slot between date and time; restricted to
the `YYYY-MM-DD[<sep>HH:MM:SS[.fff[fff]]]` shapes the application
emits). -/
def fromisoformat (l : List Char) : Option DateTime :=
  match readDigitsAux 4 0 l with
  | none => none
  | some (y, r1) =>
    match expectChar '-' r1 with
    | none => none
    | some r2 =>
      match readDigitsAux 2 0 r2 with
      | none => none
      | some (mo, r3) =>
        match expectChar '-' r3 with
        | none => none
        | some r4 =>
          match readDigitsAux 2 0 r4 with
          | none => none
          | some (d, r5) =>
            if 1 ≤ y ∧ 1 ≤ mo ∧ mo ≤ 12 ∧ 1 ≤ d ∧ d ≤ 31 then
              match r5 with
              | [] => some ⟨y, mo, d, 0, 0, 0, 0⟩
              | _sep :: rt =>
                match isoTime rt with
                | none => none
                | some (h, m, s, us) => some ⟨y, mo, d, h, m, s, us⟩
            else none

/-- The `customdata` payload of a marker click, as delivered back by the
UI layer (`clickData["points"][0]["customdata"]`). -/
structure ClickData where
  timestamp : List Char
  object : List Char
  message : List Char
deriving DecidableEq, Repr

/-- Model of the `clicked_time` computation of the callback: the
`try`/`except` around `fromisoformat` falls back to `None`. -/
def computeClicked : Option ClickData → Option DateTime
  | none => none
  | some cd => fromisoformat cd.timestamp

/-- Model of `update_timeline_callback`: parse, return an empty figure
when no event parsed, otherwise build the frame (whose failure — the
uncaught `ValueError` — propagates as `none`) and render it with the
optional clicked time. -/
def update_timeline_callback (editor_value : List Char)
    (clickData : Option ClickData) : Option Scene :=
  let events := parse_events editor_value
  if events = [] then some (Scene.mk [] [] [] [])
  else
    match create_dataframe events with
    | none => none
    | some df => some (create_figure df (computeClicked clickData)).2

/-- Model of `display_event`: the placeholder without a click, else the
three-line detail text built from the payload. -/
def display_event : Option ClickData → String
  | none => "Click on an event marker to see details."
  | some cd =>
    "Time: " ++ cd.timestamp.asString ++ "\nObject: " ++ cd.object.asString ++
      "\nMessage: " ++ cd.message.asString

example : fromisoformat "1900-01-01T10:00:00".toList =
    some ⟨1900, 1, 1, 10, 0, 0, 0⟩ := by decide

example : fromisoformat "garbage".toList = none := by decide

/-- C7: every input that parses to no events (the empty string included)
renders to the explicit empty scene — no markers, no shapes, no axis
ticks — and no failure occurs. -/
theorem C7_empty_model_empty_scene :
    ∀ (raw : List Char) (cd : Option ClickData),
      parse_events raw = [] →
      update_timeline_callback raw cd = some (Scene.mk [] [] [] []) := by
  intro raw cd h
  unfold update_timeline_callback
  simp [h]

/-- C7 (witness): the empty input yields the empty scene. -/
theorem C7_witness :
    update_timeline_callback "".toList none = some (Scene.mk [] [] [] []) :=
  C7_empty_model_empty_scene "".toList none (by decide)

/-- C8 (counterexample): a prior valid click renders a crosshair at its
time, but a subsequent click with an unparsable timestamp renders no
crosshair at all — the prior selection is dropped, not preserved. -/
theorem C8_counterexample :
    ((update_timeline_callback "[10:00:00] <<A>> x".toList
        (some ⟨"1900-01-01T10:00:00".toList, "A".toList, "x".toList⟩)).map
        (fun s => s.shapes.map Shape.x0) =
      some [⟨1900, 1, 1, 10, 0, 0, 0⟩]) ∧
    ((update_timeline_callback "[10:00:00] <<A>> x".toList
        (some ⟨"garbage".toList, "A".toList, "x".toList⟩)).map
        (fun s => s.shapes.map Shape.x0) = some []) := by
  exact ⟨rfl, rfl⟩

/-- C8 (amended): a click payload whose timestamp does not parse is
treated as no selection at all: the callback succeeds (no error) and
renders the model exactly as an unselected render — without preserving
any prior selection. -/
theorem C8_amended_invalid_click :
    ∀ (raw : List Char) (cd : ClickData) (df : List Row),
      parse_events raw ≠ [] →
      create_dataframe (parse_events raw) = some df →
      fromisoformat cd.timestamp = none →
      update_timeline_callback raw (some cd) =
        some (create_figure df none).2 := by
  intro raw cd df hne hdf hbad
  unfold update_timeline_callback
  simp only [if_neg hne, hdf]
  simp only [computeClicked, hbad]

/-- C8 (witness): the amended no-selection fallback at a concrete model
and invalid payload. -/
theorem C8_amended_witness :
    update_timeline_callback "[10:00:00] <<A>> x".toList
      (some ⟨"garbage".toList, "A".toList, "x".toList⟩) =
    some (create_figure
      [⟨⟨1900, 1, 1, 10, 0, 0, 0⟩, "A".toList, "x".toList⟩] none).2 :=
  C8_amended_invalid_click _ _ _ (by decide) (by decide) (by decide)

/-- C9 (counterexample): the model rebuilt from new text has no event at
the previously selected time `10:00:00`, yet `display_event` still
shows the stale payload's full details — there is no "no event at this
time" fallback anywhere in the code. -/
theorem C9_counterexample :
    create_dataframe (parse_events "[11:00:00] <<B>> y".toList) =
      some [⟨⟨1900, 1, 1, 11, 0, 0, 0⟩, "B".toList, "y".toList⟩] ∧
    (∀ r ∈ [(⟨⟨1900, 1, 1, 11, 0, 0, 0⟩, "B".toList, "y".toList⟩ : Row)],
      r.timestamp ≠ ⟨1900, 1, 1, 10, 0, 0, 0⟩) ∧
    display_event (some ⟨"1900-01-01T10:00:00".toList, "A".toList,
        "x".toList⟩) =
      "Time: 1900-01-01T10:00:00\nObject: A\nMessage: x" := by
  refine ⟨by decide, by decide, ?_⟩
  rfl

/-- C9 (amended): the detail presenter is a pure function of the last
click payload alone: the placeholder with no click, else exactly the
text `Time: <timestamp>`, `Object: <object>`, `Message: <message>` on
three lines — with no model-dependent fallback of any kind. -/
theorem C9_amended_display :
    display_event none = "Click on an event marker to see details." ∧
    ∀ cd : ClickData,
      display_event (some cd) =
        "Time: " ++ cd.timestamp.asString ++ "\nObject: " ++
          cd.object.asString ++ "\nMessage: " ++ cd.message.asString :=
  ⟨rfl, fun _ => rfl⟩
